import Mathlib

/-!
Verification development for the PitWall-Live feature-engineering core
(`src/models/src/features/engineer.py` and `src/models/src/data/processor.py`).

Modelling conventions:
* pandas/numpy floating-point values are modelled with exact rationals `ℚ`;
  a missing value (`NaN`/`NaT`) is `Option.none`.
* a DataFrame of result records is a `List ResultRow`; column-presence
  conditionals of the source (`if "Position" in df`) are resolved by fixing
  the documented schema, except where a claim is about column absence
  (`Compound`, `LapTimeSeconds`, `Q3`), which is carried as a table-level flag.
* Python dictionaries are association lists `List (String × _)` in insertion
  order, so both keys and values of the produced feature mappings are visible.
* `pandas.sort_values` is modelled by a stable insertion sort.
* code that can raise returns `Except`.
-/

/-- A missing-capable numeric cell (`NaN` is `none`). -/
abbrev Val : Type := Option ℚ

/-- Mean of the non-missing entries, `none` when there are none:
pandas `Series.mean()` semantics. -/
def meanOpt (l : List Val) : Val :=
  let v := l.filterMap id
  if v.isEmpty then none else some (v.sum / v.length)

/-- Minimum of the non-missing entries, `none` when there are none:
pandas `Series.min()` semantics. -/
def minOpt (l : List Val) : Val :=
  (l.filterMap id).min?

/-- The last `w` elements of a list: pandas `DataFrame.tail(w)`. -/
def lastN (w : ℕ) (l : List α) : List α :=
  l.drop (l.length - w)

/-- Boolean to numeric 0/1, as pandas does when averaging a boolean series. -/
def boolToQ (b : Bool) : ℚ :=
  if b then 1 else 0

/-- pandas comparison `Position <= c` on a nullable cell: `NaN <= c` is False. -/
def posLeB (p : Val) (c : ℚ) : Bool :=
  match p with
  | some q => decide (q ≤ c)
  | none => false

/-- One processed race-result record (schema of `process_race_results` output,
consumed by `FeatureEngineer` and `DataProcessor`). -/
structure ResultRow where
  season : ℤ
  round : ℤ
  grandPrix : String
  abbreviation : String
  teamName : String
  position : Val
  gridPosition : Val
  points : ℚ
  positionsGained : Val
  isDNF : Bool
  date : ℤ
  deriving DecidableEq, Repr

/-- Chronological comparison used by `df.sort_values("Date")`. -/
def dateLe (a b : ResultRow) : Prop :=
  a.date ≤ b.date

instance : DecidableRel dateLe := fun a b => by
  unfold dateLe; infer_instance

/-- `df.sort_values("Date")` (stable). -/
def sortByDate (rs : List ResultRow) : List ResultRow :=
  rs.insertionSort dateLe

/-- `engineer.py::FeatureEngineer._default_driver_features`. -/
def defaultDriverFeatures : List (String × Val) :=
  [("avg_finish_last_n", some 15),
   ("avg_grid_last_n", some 15),
   ("avg_points_last_n", some 0),
   ("wins_last_n", some 0),
   ("podiums_last_n", some 0),
   ("points_finishes_last_n", some 0),
   ("avg_positions_gained", some 0),
   ("dnf_rate", some (1/10)),
   ("career_races", some 0),
   ("career_wins", some 0),
   ("career_podiums", some 0),
   ("career_points", some 0),
   ("season_points", some 0),
   ("season_position", some 20)]

/-- The optional `as_of_date` cutoff of `compute_driver_features` /
`compute_team_features`: keep records dated strictly before the cutoff. -/
def applyAsOf (asOfDate : Option ℤ) (rs : List ResultRow) : List ResultRow :=
  match asOfDate with
  | some d => rs.filter (fun r => r.date < d)
  | none => rs

/-- `engineer.py::FeatureEngineer.compute_driver_features`. -/
def computeDriverFeatures (results : List ResultRow) (driverId : String)
    (asOfDate : Option ℤ) (window : ℕ) : List (String × Val) :=
  let df := applyAsOf asOfDate (results.filter (fun r => r.abbreviation = driverId))
  if df.isEmpty then defaultDriverFeatures
  else
    let dfs := sortByDate df
    let recent := lastN window dfs
    [("avg_finish_last_n", meanOpt (recent.map (·.position))),
     ("avg_grid_last_n", meanOpt (recent.map (·.gridPosition))),
     ("avg_points_last_n", meanOpt (recent.map (fun r => some r.points))),
     ("wins_last_n", some ((recent.countP (fun r => r.position = some 1) : ℚ))),
     ("podiums_last_n", some ((recent.countP (fun r => posLeB r.position 3) : ℚ))),
     ("points_finishes_last_n", some ((recent.countP (fun r => posLeB r.position 10) : ℚ))),
     ("avg_positions_gained", meanOpt (recent.map (·.positionsGained))),
     ("dnf_rate", meanOpt (dfs.map (fun r => some (boolToQ r.isDNF)))),
     ("career_races", some (dfs.length : ℚ)),
     ("career_wins", some ((dfs.countP (fun r => r.position = some 1) : ℚ))),
     ("career_podiums", some ((dfs.countP (fun r => posLeB r.position 3) : ℚ))),
     ("career_points", some ((dfs.map (·.points)).sum)),
     ("season_points", some 0),
     ("season_position", some 0)]

/-- `engineer.py::FeatureEngineer._default_circuit_features`. -/
def defaultCircuitFeatures : List (String × Val) :=
  [("circuit_races_in_data", some 0),
   ("circuit_sc_rate", some (1/2)),
   ("avg_position_changes", some 3),
   ("circuit_dnf_rate", some (1/10))]

/-- `engineer.py::FeatureEngineer.compute_circuit_features`.  The Python
truthiness test `if driver_id:` is `driver_id` being a non-`None`, non-empty
string. -/
def computeCircuitFeatures (results : List ResultRow) (circuitName : String)
    (driverId : Option String) : List (String × Val) :=
  let circuitDf := results.filter (fun r => r.grandPrix = circuitName)
  if circuitDf.isEmpty then defaultCircuitFeatures
  else
    let base : List (String × Val) :=
      [("circuit_races_in_data", some (((circuitDf.map (·.season)).dedup.length : ℚ))),
       ("circuit_sc_rate", some (1/2)),
       ("avg_position_changes", meanOpt (circuitDf.map (fun r => r.positionsGained.map (|·|)))),
       ("circuit_dnf_rate", meanOpt (circuitDf.map (fun r => some (boolToQ r.isDNF))))]
    let driverBlock : List (String × Val) :=
      match driverId with
      | some d =>
        if d ≠ "" then
          let driverCircuit := circuitDf.filter (fun r => r.abbreviation = d)
          if driverCircuit.length > 0 then
            [("driver_circuit_races", some (driverCircuit.length : ℚ)),
             ("driver_circuit_avg_finish", meanOpt (driverCircuit.map (·.position))),
             ("driver_circuit_best_finish", minOpt (driverCircuit.map (·.position))),
             ("driver_circuit_wins", some ((driverCircuit.countP (fun r => r.position = some 1) : ℚ))),
             ("driver_circuit_podiums", some ((driverCircuit.countP (fun r => posLeB r.position 3) : ℚ)))]
          else
            [("driver_circuit_races", some 0),
             ("driver_circuit_avg_finish", some 10),
             ("driver_circuit_best_finish", some 10),
             ("driver_circuit_wins", some 0),
             ("driver_circuit_podiums", some 0)]
        else []
      | none => []
    base ++ driverBlock

/-- `engineer.py::FeatureEngineer._default_team_features`. -/
def defaultTeamFeatures : List (String × Val) :=
  [("team_avg_points_last_n", some 5),
   ("team_avg_finish_last_n", some 10),
   ("team_season_points", some 0),
   ("team_constructor_position", some 5),
   ("team_reliability_rate", some (9/10))]

/-- Lexicographic order on `(Season, Round)` keys, the ascending group-key
order of `df.groupby(["Season", "Round"])`. -/
def seasonRoundLe (a b : ℤ × ℤ) : Prop :=
  a.1 < b.1 ∨ (a.1 = b.1 ∧ a.2 ≤ b.2)

instance : DecidableRel seasonRoundLe := fun a b => by
  unfold seasonRoundLe; infer_instance

/-- `engineer.py::FeatureEngineer.compute_team_features`. -/
def computeTeamFeatures (results : List ResultRow) (teamName : String)
    (asOfDate : Option ℤ) (window : ℕ) : List (String × Val) :=
  let df := applyAsOf asOfDate (results.filter (fun r => r.teamName = teamName))
  if df.isEmpty then defaultTeamFeatures
  else
    let dfs := sortByDate df
    let keys := ((dfs.map (fun r => (r.season, r.round))).dedup).insertionSort seasonRoundLe
    let teamRaces : List (ℚ × Val) := keys.map (fun k =>
      let grp := dfs.filter (fun r => r.season = k.1 ∧ r.round = k.2)
      ((grp.map (·.points)).sum, meanOpt (grp.map (·.position))))
    let recent := lastN window teamRaces
    [("team_avg_points_last_n", meanOpt (recent.map (fun g => some g.1))),
     ("team_avg_finish_last_n", meanOpt (recent.map (·.2))),
     ("team_season_points", some 0),
     ("team_constructor_position", some 5),
     ("team_reliability_rate", some (1 - ((dfs.countP (·.isDNF) : ℚ)) / (dfs.length : ℚ)))]

/-- One qualifying-result record. -/
structure QualiRow where
  abbreviation : String
  position : Val
  q3 : Val
  deriving DecidableEq, Repr

/-- Qualifying results; `hasQ3` models presence of the `Q3` column
(`if "Q3" in quali_results`). -/
structure QualiTable where
  hasQ3 : Bool
  rows : List QualiRow
  deriving DecidableEq, Repr

/-- The Python value bound to `pole_time` in `compute_session_features`:
`None` when the `Q3` column is absent, otherwise the pole-sitter's Q3 cell,
which may itself be a missing value (`NaT`). -/
inductive PoleVal
  | pyNone
  | missingTime
  | secs (q : ℚ)
  deriving DecidableEq, Repr

/-- Python truthiness of `pole_time` (`if pole_time ...`): `None` is falsy, a
zero duration is falsy, a nonzero duration truthy; a missing `NaT` cell has
default object truthiness (truthy). -/
def poleTruthy : PoleVal → Bool
  | .pyNone => false
  | .missingTime => true
  | .secs q => q ≠ 0

/-- One practice/race lap record. -/
structure LapRow where
  driver : String
  lapNumber : ℤ
  compound : Option String
  lapTimeSeconds : Val
  deriving DecidableEq, Repr

/-- Lap table with column-presence flags for `Compound` and `LapTimeSeconds`. -/
structure LapTable where
  hasCompound : Bool
  hasLapTimeSeconds : Bool
  rows : List LapRow
  deriving DecidableEq, Repr

/-- `engineer.py::FeatureEngineer.compute_session_features`.  The qualifying
part raises (`IndexError` from `.iloc[0]`) when the `Q3` column is present but
no row has `Position == 1`; all other data gaps default silently. -/
def computeSessionFeatures (quali : QualiTable) (practiceLaps : Option LapTable)
    (driverId : Option String) : Except String (List (String × Val)) :=
  let dId := driverId.getD ""
  let qualiPart : Except String (List (String × Val)) :=
    if dId ≠ "" ∧ ¬ quali.rows.isEmpty then
      match (quali.rows.filter (fun r => r.abbreviation = dId)).head? with
      | none => .ok []
      | some row =>
        let poleTime : Except String PoleVal :=
          if quali.hasQ3 then
            match (quali.rows.filter (fun r => r.position = some 1)).head? with
            | none => .error "IndexError"
            | some pr => .ok (match pr.q3 with
                              | none => .missingTime
                              | some t => .secs t)
          else .ok .pyNone
        match poleTime with
        | .error e => .error e
        | .ok pv =>
          let gap : Val :=
            if poleTruthy pv then
              match row.q3 with
              | some dt =>
                (match pv with
                 | .secs p => some (dt - p)
                 | _ => none)
              | none => some 1
            else some 1
          .ok [("grid_position", row.position), ("quali_gap_to_pole", gap)]
    else .ok []
  match qualiPart with
  | .error e => .error e
  | .ok fs =>
    let practicePart : List (String × Val) :=
      match practiceLaps with
      | some pt =>
        if dId ≠ "" ∧ ¬ pt.rows.isEmpty then
          let dp := pt.rows.filter (fun r => r.driver = dId)
          if dp.length > 0 then
            [("fp_best_lap_time", minOpt (dp.map (·.lapTimeSeconds))),
             ("fp_avg_lap_time", meanOpt (dp.map (·.lapTimeSeconds))),
             ("fp_lap_count", some (dp.length : ℚ))]
          else []
        else []
      | none => []
    .ok (fs ++ practicePart)

/-- The strict chronological predicate of `build_race_features`: a record is
historical when `Season < target_season` or (`Season == target_season` and
`Round < target_round`). -/
def beforeTarget (targetSeason targetRound : ℤ) (r : ResultRow) : Prop :=
  r.season < targetSeason ∨ (r.season = targetSeason ∧ r.round < targetRound)

instance : ∀ ts tr, DecidablePred (beforeTarget ts tr) := fun ts tr r => by
  unfold beforeTarget; infer_instance

/-- The historical slice taken by `build_race_features` (engineer.py:369-373). -/
def filterHistorical (targetSeason targetRound : ℤ)
    (raceResults : List ResultRow) : List ResultRow :=
  raceResults.filter (fun r => beforeTarget targetSeason targetRound r)

/-- Heterogeneous cell of an assembled feature row. -/
inductive Cell
  | num (q : ℚ)
  | nan
  | str (s : String)
  | bool (b : Bool)
  deriving DecidableEq, Repr

/-- Numeric feature value to cell. -/
def valToCell : Val → Cell
  | some q => .num q
  | none => .nan

/-- `engineer.py::FeatureEngineer.build_race_features`. -/
def buildRaceFeatures (raceResults : List ResultRow) (qualiResults : QualiTable)
    (targetSeason targetRound : ℤ) : Except String (List (List (String × Cell))) :=
  let historical := filterHistorical targetSeason targetRound raceResults
  let targetRace := raceResults.filter
    (fun r => r.season = targetSeason ∧ r.round = targetRound)
  match targetRace.head? with
  | none => .ok []
  | some t0 =>
    let circuitName := t0.grandPrix
    let drivers := (targetRace.map (·.abbreviation)).dedup
    drivers.mapM (fun d =>
      let driverRow := ((targetRace.filter (fun r => r.abbreviation = d)).head?).getD t0
      let driverF := computeDriverFeatures historical d none 5
      let circuitF := computeCircuitFeatures historical circuitName (some d)
      let teamF := computeTeamFeatures historical driverRow.teamName none 5
      match computeSessionFeatures qualiResults none (some d) with
      | .error e => .error e
      | .ok sessionF =>
        .ok ([("Season", Cell.num (targetSeason : ℚ)),
              ("Round", Cell.num (targetRound : ℚ)),
              ("GrandPrix", Cell.str circuitName),
              ("Driver", Cell.str d),
              ("Team", Cell.str driverRow.teamName)]
          ++ (driverF.map (fun p => (p.1, valToCell p.2)))
          ++ (circuitF.map (fun p => (p.1, valToCell p.2)))
          ++ (teamF.map (fun p => (p.1, valToCell p.2)))
          ++ (sessionF.map (fun p => (p.1, valToCell p.2)))
          ++ [("Position", valToCell driverRow.position),
              ("Points", Cell.num driverRow.points),
              ("IsWinner", Cell.bool (driverRow.position = some 1)),
              ("IsPodium", Cell.bool (posLeB driverRow.position 3)),
              ("IsPoints", Cell.bool (posLeB driverRow.position 10))]))

/-- Sort key of `driver_laps.sort_values("LapNumber")`. -/
def lapNumLe (a b : LapRow) : Prop :=
  a.lapNumber ≤ b.lapNumber

instance : DecidableRel lapNumLe := fun a b => by
  unfold lapNumLe; infer_instance

/-- pandas elementwise `!=` on compound cells: any comparison involving a
missing value is True. -/
def compoundNe (a b : Option String) : Bool :=
  match a, b with
  | some x, some y => decide (x ≠ y)
  | _, _ => true

/-- Cumulative sum of change flags, starting from `acc`. -/
def cumsumB (acc : ℕ) : List Bool → List ℕ
  | [] => []
  | b :: rest =>
    let acc2 := acc + (if b then 1 else 0)
    acc2 :: cumsumB acc2 rest

/-- Stint identifiers (engineer.py:546-551):
`(Compound != Compound.shift()).cumsum()` when the `Compound` column exists,
else the constant 1. -/
def stintNums (hasCompound : Bool) (comps : List (Option String)) : List ℕ :=
  if hasCompound then
    cumsumB 0 ((comps.zip (none :: comps)).map (fun p => compoundNe p.1 p.2))
  else comps.map (fun _ => 1)

/-- One lap together with its assigned stint number and in-stint age. -/
structure ALap where
  lap : LapRow
  stint : ℕ
  age : ℕ
  deriving DecidableEq, Repr

/-- `groupby("StintNumber").cumcount() + 1`: the age of a lap is one plus the
number of earlier laps carrying the same stint id. -/
def annGo (pre : List ℕ) : List (LapRow × ℕ) → List ALap
  | [] => []
  | p :: rest => ⟨p.1, p.2, 1 + pre.countP (· = p.2)⟩ :: annGo (pre ++ [p.2]) rest

/-- The annotated (stint number, tire age) lap stream of
`compute_tire_features` after filtering to the driver and sorting. -/
def annotateLaps (laps : LapTable) (driverId : String) : List ALap :=
  let dl := (laps.rows.filter (fun r => r.driver = driverId)).insertionSort lapNumLe
  annGo [] (dl.zip (stintNums laps.hasCompound (dl.map (·.compound))))

/-- One output row of `compute_tire_features`. -/
structure StintRow where
  stintNumber : ℕ
  compound : Option String
  stintLength : ℕ
  degradationRate : ℚ
  avgLapTime : ℚ
  bestLapTime : ℚ
  deriving DecidableEq, Repr

/-- Ordinary-least-squares slope of `ys` against `xs`
(`np.polyfit(x, y, 1)[0]` in exact arithmetic). -/
def olsSlope (xs ys : List ℚ) : ℚ :=
  let n : ℚ := xs.length
  (n * ((xs.zip ys).map (fun p => p.1 * p.2)).sum - xs.sum * ys.sum) /
    (n * (xs.map (fun x => x ^ 2)).sum - xs.sum ^ 2)

/-- The loop body of `compute_tire_features` for one stint id: skip stints of
fewer than 3 laps; when `LapTimeSeconds` exists, keep the laps with a
non-missing time (`mask = ~isnan(y)`), require at least 3 of them, and emit
the stint row with the fitted slope. -/
def stintRowFor (laps : LapTable) (annot : List ALap) (s : ℕ) : Option StintRow :=
  let grp := annot.filter (fun a => a.stint = s)
  if grp.length < 3 then none
  else if laps.hasLapTimeSeconds then
    let valid := grp.filter (fun a => a.lap.lapTimeSeconds ≠ none)
    if 3 ≤ valid.length then
      let xs : List ℚ := valid.map (fun a => (a.age : ℚ))
      let ys : List ℚ := valid.map (fun a => a.lap.lapTimeSeconds.getD 0)
      match grp.head? with
      | some g =>
        some { stintNumber := s,
               compound := if laps.hasCompound then g.lap.compound else some "Unknown",
               stintLength := grp.length,
               degradationRate := olsSlope xs ys,
               avgLapTime := ys.sum / (ys.length : ℚ),
               bestLapTime := (ys.min?).getD 0 }
      | none => none
    else none
  else none

/-- `engineer.py::FeatureEngineer.compute_tire_features`: group the annotated
laps by stint id (`groupby` keys ascend; stint ids are nondecreasing along the
sorted laps, so first-occurrence order is ascending) and emit one row per
qualifying stint. -/
def computeTireFeatures (laps : LapTable) (driverId : String) : List StintRow :=
  let annot := annotateLaps laps driverId
  ((annot.map (·.stint)).dedup).filterMap (stintRowFor laps annot)

/-- Rolling statistics attached to one row by
`processor.py::DataProcessor.compute_driver_stats`. -/
structure DriverStats where
  avgFinishLast5 : Val
  avgGridLast5 : Val
  winsLast5 : ℚ
  podiumsLast5 : ℚ
  pointsLast5 : ℚ
  dnfsLast5 : ℚ
  deriving DecidableEq, Repr

/-- The rolling window statistics over the trailing `min(w, |hist|)` records
of a driver's history (`rolling(window, min_periods=1)`). -/
def mkDriverStats (w : ℕ) (hist : List ResultRow) : DriverStats :=
  let win := lastN w hist
  { avgFinishLast5 := meanOpt (win.map (·.position)),
    avgGridLast5 := meanOpt (win.map (·.gridPosition)),
    winsLast5 := (win.countP (fun r => r.position = some 1) : ℚ),
    podiumsLast5 := (win.countP (fun r => posLeB r.position 3) : ℚ),
    pointsLast5 := (win.map (·.points)).sum,
    dnfsLast5 := (win.countP (·.isDNF) : ℚ) }

/-- The `(Abbreviation, Date)` sort key of `compute_driver_stats`. -/
def abbrDateLe (a b : ResultRow) : Prop :=
  a.abbreviation < b.abbreviation ∨
    (a.abbreviation = b.abbreviation ∧ a.date ≤ b.date)

instance : DecidableRel abbrDateLe := fun a b => by
  unfold abbrDateLe; infer_instance

/-- Walk the sorted record stream, attaching to each row the rolling
statistics of its own driver's history up to and including that row
(`groupby("Abbreviation")` + per-group `rolling`, re-aligned by row index). -/
def statsWalk (w : ℕ) (pre : List ResultRow) :
    List ResultRow → List (ResultRow × DriverStats)
  | [] => []
  | r :: rest =>
    (r, mkDriverStats w ((pre ++ [r]).filter (fun x => x.abbreviation = r.abbreviation)))
      :: statsWalk w (pre ++ [r]) rest

/-- `processor.py::DataProcessor.compute_driver_stats`. -/
def computeDriverStats (results : List ResultRow) (window : ℕ) :
    List (ResultRow × DriverStats) :=
  statsWalk window [] (results.insertionSort abbrDateLe)

/-- Failures surfaced by the scaler registry: the explicit lookup
`ValueError` of `transform_scaler`, and the errors sklearn raises inside
`StandardScaler` on a feature-count mismatch or an empty sample. -/
inductive SkErr
  | scalerNotFound
  | featureMismatch
  | emptySample
  deriving DecidableEq, Repr

/-- A registered scaler: the resolved columns it was fit on and, per column,
the fitted center and scale (`mean_` and `scale_`). -/
structure ScalerInfo where
  columns : List String
  params : List (String × ℚ × ℚ)
  deriving DecidableEq, Repr

/-- A column-oriented DataFrame for the scaler registry. -/
structure DF where
  nrows : ℕ
  cols : List (String × List Val)
  deriving DecidableEq, Repr

/-- `c in df.columns`. -/
def DF.hasCol (df : DF) (c : String) : Bool :=
  df.cols.any (fun p => p.1 = c)

/-- Read a column's cells. -/
def DF.getCol (df : DF) (c : String) : List Val :=
  ((df.cols.find? (fun p => p.1 = c)).map (·.2)).getD []

/-- Replace a column's cells. -/
def DF.setCol (df : DF) (c : String) (v : List Val) : DF :=
  ⟨df.nrows, df.cols.map (fun p => if p.1 = c then (p.1, v) else p)⟩

/-- `fillna(0)` on one column. -/
def zfill (l : List Val) : List ℚ :=
  l.map (fun v => v.getD 0)

/-- Arithmetic mean. -/
def meanQ (l : List ℚ) : ℚ :=
  l.sum / (l.length : ℚ)

/-- Population variance, as `StandardScaler` computes it. -/
def popVar (l : List ℚ) : ℚ :=
  meanQ (l.map (fun x => (x - meanQ l) ^ 2))

/-- sklearn `_handle_zeros_in_scale`: a zero scale becomes 1. -/
def handleZeros (s : ℚ) : ℚ :=
  if s = 0 then 1 else s

/-- Registry lookup (`self.scalers[name]`, most recent fit wins). -/
def stLookup (st : List (String × ScalerInfo)) (n : String) : Option ScalerInfo :=
  (st.find? (fun p => p.1 = n)).map (·.2)

/-- Apply fitted per-column `(center, scale)` parameters after zero-filling;
every column is read from the original `df`, as the whole sub-frame is
extracted before assignment in the source. -/
def scaleColumns (df : DF) (params : List (String × ℚ × ℚ)) : DF :=
  params.foldl
    (fun d p => d.setCol p.1 ((zfill (df.getCol p.1)).map (fun x => some ((x - p.2.1) / p.2.2))))
    df

/-- `processor.py::DataProcessor.fit_scaler`.  `StandardScaler`'s scale is
the square root of the population variance; the square root does not exist in
`ℚ`, so it is abstracted by the parameter `sq` — every claim proved below is
independent of the numeric value of `sq`.  sklearn refuses to fit on zero
samples. -/
def fitScaler (sq : ℚ → ℚ) (st : List (String × ScalerInfo)) (df : DF)
    (columns : List String) (name : String) :
    Except SkErr (DF × List (String × ScalerInfo)) :=
  let validCols := columns.filter (fun c => df.hasCol c)
  if validCols.isEmpty then .ok (df, st)
  else if df.nrows = 0 then .error .emptySample
  else
    let params := validCols.map (fun c =>
      let v := zfill (df.getCol c)
      (c, meanQ v, handleZeros (sq (popVar v))))
    .ok (scaleColumns df params, (name, ⟨validCols, params⟩) :: st)

/-- `processor.py::DataProcessor.transform_scaler`: an unknown name is the
explicit lookup `ValueError`; otherwise `scaler.transform` requires the same
feature count as at fit time and a nonempty sample. -/
def transformScaler (st : List (String × ScalerInfo)) (df : DF) (name : String) :
    Except SkErr DF :=
  match stLookup st name with
  | none => .error .scalerNotFound
  | some info =>
    let validCols := info.columns.filter (fun c => df.hasCol c)
    if df.nrows = 0 then .error .emptySample
    else if validCols.length ≠ info.params.length then .error .featureMismatch
    else .ok (scaleColumns df info.params)

/-- The specification's rolling window: the 1-based rows
`max(1, i - w + 1) .. i` of a record stream. -/
def windowSlice (rs : List ResultRow) (i w : ℕ) : List ResultRow :=
  (rs.take i).drop (i - w)

deriving instance DecidableEq for Except

/-! ## Helper lemmas -/

theorem find?_setCol_ne (cols : List (String × List Val)) (c c2 : String)
    (v : List Val) (h : c2 ≠ c) :
    (cols.map (fun p => if p.1 = c2 then (p.1, v) else p)).find? (fun p => p.1 = c)
      = cols.find? (fun p => p.1 = c) := by
  induction cols with
  | nil => rfl
  | cons p rest ih =>
    by_cases hp : p.1 = c2
    · have hc : ¬ p.1 = c := fun hcc => h (by rw [← hp, hcc])
      rw [List.map_cons, if_pos hp, List.find?_cons_of_neg _ (by simpa using hc),
        List.find?_cons_of_neg _ (by simpa using hc)]
      exact ih
    · by_cases hc : p.1 = c
      · rw [List.map_cons, if_neg hp, List.find?_cons_of_pos _ (by simpa using hc),
          List.find?_cons_of_pos _ (by simpa using hc)]
      · rw [List.map_cons, if_neg hp, List.find?_cons_of_neg _ (by simpa using hc),
          List.find?_cons_of_neg _ (by simpa using hc)]
        exact ih

theorem find?_setCol_eq (cols : List (String × List Val)) (c : String)
    (v : List Val) (h : cols.any (fun p => p.1 = c) = true) :
    (cols.map (fun p => if p.1 = c then (p.1, v) else p)).find? (fun p => p.1 = c)
      = some (c, v) := by
  induction cols with
  | nil => simp at h
  | cons p rest ih =>
    by_cases hp : p.1 = c
    · rw [List.map_cons, if_pos hp, List.find?_cons_of_pos _ (by simpa using hp)]
      rw [hp]
    · rw [List.any_cons] at h
      rw [List.map_cons, if_neg hp, List.find?_cons_of_neg _ (by simpa using hp)]
      exact ih (by simpa [hp] using h)

theorem hasCol_setCol (df : DF) (c c2 : String) (v : List Val) :
    (df.setCol c2 v).hasCol c = df.hasCol c := by
  obtain ⟨n, cols⟩ := df
  simp only [DF.setCol, DF.hasCol]
  induction cols with
  | nil => rfl
  | cons p rest ih =>
    by_cases hp : p.1 = c2
    · rw [List.map_cons, if_pos hp, List.any_cons, List.any_cons, ih]
    · rw [List.map_cons, if_neg hp, List.any_cons, List.any_cons, ih]

theorem getCol_setCol_ne (df : DF) (c c2 : String) (v : List Val) (h : c2 ≠ c) :
    (df.setCol c2 v).getCol c = df.getCol c := by
  obtain ⟨n, cols⟩ := df
  simp only [DF.setCol, DF.getCol]
  rw [find?_setCol_ne cols c c2 v h]

theorem getCol_setCol_eq (df : DF) (c : String) (v : List Val)
    (h : df.hasCol c = true) :
    (df.setCol c v).getCol c = v := by
  obtain ⟨n, cols⟩ := df
  simp only [DF.setCol, DF.hasCol] at *
  simp only [DF.getCol]
  rw [find?_setCol_eq cols c v h]
  rfl

/-! ## Claim theorems -/

/-- C2.  Default driver feature vector: whenever the history filtered to the
driver (and, if supplied, to dates strictly before `as_of_date`) is empty,
`compute_driver_features` returns exactly the documented default mapping —
average finish/grid 15.0, DNF rate 0.1, season position 20, every count and
points feature 0 — with every documented key present.  The model is a total
function, so the empty-history path cannot raise. -/
theorem c2_default_driver_vector (results : List ResultRow) (driverId : String)
    (asOfDate : Option ℤ) (window : ℕ)
    (h : applyAsOf asOfDate (results.filter (fun r => r.abbreviation = driverId)) = []) :
    computeDriverFeatures results driverId asOfDate window = defaultDriverFeatures ∧
    defaultDriverFeatures =
      [("avg_finish_last_n", some 15),
       ("avg_grid_last_n", some 15),
       ("avg_points_last_n", some 0),
       ("wins_last_n", some 0),
       ("podiums_last_n", some 0),
       ("points_finishes_last_n", some 0),
       ("avg_positions_gained", some 0),
       ("dnf_rate", some (1/10)),
       ("career_races", some 0),
       ("career_wins", some 0),
       ("career_podiums", some 0),
       ("career_points", some 0),
       ("season_points", some 0),
       ("season_position", some 20)] := by
  refine ⟨?_, rfl⟩
  unfold computeDriverFeatures
  rw [h]
  rfl

/-- Witness for C2 at a concrete empty history. -/
theorem c2_default_driver_vector_witness :
    computeDriverFeatures [] "VER" none 5 = defaultDriverFeatures ∧
    defaultDriverFeatures =
      [("avg_finish_last_n", some 15),
       ("avg_grid_last_n", some 15),
       ("avg_points_last_n", some 0),
       ("wins_last_n", some 0),
       ("podiums_last_n", some 0),
       ("points_finishes_last_n", some 0),
       ("avg_positions_gained", some 0),
       ("dnf_rate", some (1/10)),
       ("career_races", some 0),
       ("career_wins", some 0),
       ("career_podiums", some 0),
       ("career_points", some 0),
       ("season_points", some 0),
       ("season_position", some 20)] :=
  c2_default_driver_vector [] "VER" none 5 rfl

/-- C1.  No-leakage: if two result tables agree on the records strictly
before the target `(season, round)` — season compared first, then round —
then the historical slice of `build_race_features` agrees, and so does every
driver, circuit and team feature computed from it (the session group reads
only the qualifying table, not the result records).  Additionally the
explicit `as_of_date` cutoff of `compute_driver_features` keeps only records
dated strictly before it: records at or after the cutoff are irrelevant. -/
theorem c1_no_leakage (ts tr : ℤ) (rs rs2 : List ResultRow) (d c t : String)
    (aod : ℤ) (w : ℕ)
    (h : rs.filter (fun r => beforeTarget ts tr r)
          = rs2.filter (fun r => beforeTarget ts tr r)) :
    filterHistorical ts tr rs = filterHistorical ts tr rs2 ∧
    computeDriverFeatures (filterHistorical ts tr rs) d none w
      = computeDriverFeatures (filterHistorical ts tr rs2) d none w ∧
    computeCircuitFeatures (filterHistorical ts tr rs) c (some d)
      = computeCircuitFeatures (filterHistorical ts tr rs2) c (some d) ∧
    computeTeamFeatures (filterHistorical ts tr rs) t none w
      = computeTeamFeatures (filterHistorical ts tr rs2) t none w ∧
    computeDriverFeatures rs d (some aod) w
      = computeDriverFeatures (rs.filter (fun r => r.date < aod)) d (some aod) w := by
  have hf : filterHistorical ts tr rs = filterHistorical ts tr rs2 := h
  refine ⟨hf, by rw [hf], by rw [hf], by rw [hf], ?_⟩
  simp only [computeDriverFeatures, applyAsOf]
  have hd : (rs.filter (fun r => r.abbreviation = d)).filter (fun r => r.date < aod)
      = ((rs.filter (fun r => r.date < aod)).filter
          (fun r => r.abbreviation = d)).filter (fun r => r.date < aod) := by
    simp only [List.filter_filter]
    refine (List.filter_congr ?_)
    intro a _
    by_cases h1 : a.abbreviation = d <;> by_cases h2 : a.date < aod <;>
      simp [h1, h2]
  rw [hd]

/-- Witness for C1: adding a record at the target round leaves the driver
features computed from the historical slice unchanged. -/
theorem c1_no_leakage_witness :
    computeDriverFeatures
      (filterHistorical 2023 2
        [⟨2023, 1, "Bahrain", "VER", "RBR", some 1, some 2, 25, some 1, false, 100⟩])
      "VER" none 5
    = computeDriverFeatures
      (filterHistorical 2023 2
        [⟨2023, 1, "Bahrain", "VER", "RBR", some 1, some 2, 25, some 1, false, 100⟩,
         ⟨2023, 2, "Jeddah", "VER", "RBR", some 3, some 1, 15, some (-2), false, 200⟩])
      "VER" none 5 :=
  (c1_no_leakage 2023 2
    [⟨2023, 1, "Bahrain", "VER", "RBR", some 1, some 2, 25, some 1, false, 100⟩]
    [⟨2023, 1, "Bahrain", "VER", "RBR", some 1, some 2, 25, some 1, false, 100⟩,
     ⟨2023, 2, "Jeddah", "VER", "RBR", some 3, some 1, 15, some (-2), false, 200⟩]
    "VER" "Bahrain" "RBR" 150 5 (by decide)).2.1

/-- C10.  `fit_scaler` with no requested column present returns the table
unchanged and registers nothing (so a later `transform_scaler` on a fresh name
still raises the lookup error); with at least one column present (and a
nonempty sample, which sklearn requires) it registers a transform bound to
exactly the present subset of the requested columns. -/
theorem c10_fit_scaler_registration (sq : ℚ → ℚ) (st : List (String × ScalerInfo))
    (df : DF) (columns : List String) (name : String) :
    (columns.filter (fun c => df.hasCol c) = [] →
      fitScaler sq st df columns name = .ok (df, st) ∧
      (stLookup st name = none →
        ∀ df2, transformScaler st df2 name = .error .scalerNotFound)) ∧
    (columns.filter (fun c => df.hasCol c) ≠ [] → 0 < df.nrows →
      ∃ df1 info, fitScaler sq st df columns name = .ok (df1, (name, info) :: st) ∧
        info.columns = columns.filter (fun c => df.hasCol c) ∧
        stLookup ((name, info) :: st) name = some info) := by
  constructor
  · intro h
    refine ⟨?_, ?_⟩
    · unfold fitScaler
      rw [h]
      rfl
    · intro h2 df2
      unfold transformScaler
      rw [h2]
  · intro h hn
    refine ⟨scaleColumns df ((columns.filter (fun c => df.hasCol c)).map (fun c =>
        (c, meanQ (zfill (df.getCol c)), handleZeros (sq (popVar (zfill (df.getCol c))))))),
      ⟨columns.filter (fun c => df.hasCol c),
       (columns.filter (fun c => df.hasCol c)).map (fun c =>
        (c, meanQ (zfill (df.getCol c)), handleZeros (sq (popVar (zfill (df.getCol c))))))⟩,
      ?_, rfl, ?_⟩
    · unfold fitScaler
      rw [if_neg (by simp only [List.isEmpty_iff]; exact h),
        if_neg (Nat.pos_iff_ne_zero.mp hn)]
    · unfold stLookup
      rw [List.find?_cons_of_pos _ (by simp)]
      rfl

/-- Witness for C10, first branch: fitting on an absent column leaves table
and registry unchanged, and the name stays unknown to `transform_scaler`. -/
theorem c10_fit_scaler_registration_witness :
    (fitScaler (fun q => q) [] ⟨1, [("b", [some 3])]⟩ ["a"] "n"
      = .ok (⟨1, [("b", [some 3])]⟩, []) ∧
     transformScaler [] ⟨1, [("b", [some 3])]⟩ "n" = .error .scalerNotFound) ∧
    (∃ df1 info,
      fitScaler (fun q => q) [] ⟨1, [("b", [some 3])]⟩ ["b"] "n"
        = .ok (df1, ("n", info) :: []) ∧
      info.columns = ["b"].filter (fun c => DF.hasCol ⟨1, [("b", [some 3])]⟩ c) ∧
      stLookup [("n", info)] "n" = some info) := by
  have h1 := (c10_fit_scaler_registration (fun q => q) [] ⟨1, [("b", [some 3])]⟩ ["a"] "n").1 (by decide)
  have h2 := (c10_fit_scaler_registration (fun q => q) [] ⟨1, [("b", [some 3])]⟩ ["b"] "n").2 (by decide) (by decide)
  exact ⟨⟨h1.1, h1.2 (by decide) _⟩, h2⟩

/-- C7.  Scaler round-trip: whenever `fit_scaler` actually registers (at
least one requested column resolves), applying `transform_scaler` with the
fitted name to the fit-time input reproduces exactly the table `fit_scaler`
returned — fit and transform zero-fill and resolve columns identically. -/
theorem c7_scaler_roundtrip (sq : ℚ → ℚ) (st : List (String × ScalerInfo))
    (df : DF) (columns : List String) (name : String) (df1 : DF)
    (st1 : List (String × ScalerInfo))
    (hv : columns.filter (fun c => df.hasCol c) ≠ [])
    (hfit : fitScaler sq st df columns name = .ok (df1, st1)) :
    transformScaler st1 df name = .ok df1 := by
  unfold fitScaler at hfit
  rw [if_neg (by simp only [List.isEmpty_iff]; exact hv)] at hfit
  by_cases hz : df.nrows = 0
  · rw [if_pos hz] at hfit
    cases hfit
  · rw [if_neg hz] at hfit
    simp only [Except.ok.injEq, Prod.mk.injEq] at hfit
    obtain ⟨hdf1, hst1⟩ := hfit
    subst hdf1
    subst hst1
    unfold transformScaler stLookup
    rw [List.find?_cons_of_pos _ (by simp)]
    dsimp only [Option.map]
    have hfilter :
        ((columns.filter (fun c => df.hasCol c)).filter (fun c => df.hasCol c))
          = columns.filter (fun c => df.hasCol c) :=
      List.filter_eq_self.mpr (fun a ha => (List.mem_filter.mp ha).2)
    rw [if_neg hz, hfilter, if_neg (by rw [List.length_map]; exact fun hne => hne rfl)]

/-- Witness for C7 at a concrete one-column table. -/
theorem c7_scaler_roundtrip_witness :
    transformScaler [("n", ⟨["a"], [("a", 2, 1)]⟩)] ⟨1, [("a", [some 2])]⟩ "n"
      = .ok ⟨1, [("a", [some 0])]⟩ :=
  c7_scaler_roundtrip (fun q => q) [] ⟨1, [("a", [some 2])]⟩ ["a"] "n"
    ⟨1, [("a", [some 0])]⟩ [("n", ⟨["a"], [("a", 2, 1)]⟩)]
    (by decide)
    (by norm_num [fitScaler, scaleColumns, meanQ, popVar, zfill, handleZeros,
      DF.hasCol, DF.getCol, DF.setCol])

theorem foldSet_getCol_ne (src d : DF) (params : List (String × ℚ × ℚ))
    (c : String) (h : ∀ p ∈ params, p.1 ≠ c) :
    ((params.foldl (fun d2 p =>
        d2.setCol p.1 ((zfill (src.getCol p.1)).map (fun x => some ((x - p.2.1) / p.2.2)))) d).getCol c)
      = d.getCol c := by
  induction params generalizing d with
  | nil => rfl
  | cons p rest ih =>
    rw [List.foldl_cons, ih _ (fun q hq => h q (List.mem_cons_of_mem _ hq))]
    exact getCol_setCol_ne d c p.1 _ (h p (List.mem_cons_self _ _))

theorem foldSet_hasCol (src d : DF) (params : List (String × ℚ × ℚ)) (c : String) :
    ((params.foldl (fun d2 p =>
        d2.setCol p.1 ((zfill (src.getCol p.1)).map (fun x => some ((x - p.2.1) / p.2.2)))) d).hasCol c)
      = d.hasCol c := by
  induction params generalizing d with
  | nil => rfl
  | cons p rest ih =>
    rw [List.foldl_cons, ih]
    exact hasCol_setCol d c p.1 _

theorem foldSet_getCol_eq (src : DF) (params : List (String × ℚ × ℚ))
    (c : String) (m s : ℚ) (hmem : (c, m, s) ∈ params)
    (hnd : (params.map (fun p => p.1)).Nodup) :
    ∀ d : DF, d.hasCol c = true →
    ((params.foldl (fun d2 p =>
        d2.setCol p.1 ((zfill (src.getCol p.1)).map (fun x => some ((x - p.2.1) / p.2.2)))) d).getCol c)
      = (zfill (src.getCol c)).map (fun x => some ((x - m) / s)) := by
  induction params with
  | nil => cases hmem
  | cons p rest ih =>
    intro d hc
    rw [List.foldl_cons]
    rcases List.mem_cons.mp hmem with heq | hrest
    · have hkey : ∀ q ∈ rest, q.1 ≠ c := by
        intro q hq hqc
        rw [List.map_cons, List.nodup_cons] at hnd
        apply hnd.1
        have hp1 : p.1 = c := by rw [← heq]
        rw [hp1, ← hqc]
        exact List.mem_map_of_mem _ hq
      rw [foldSet_getCol_ne src _ rest c hkey, ← heq]
      exact getCol_setCol_eq d c _ hc
    · rw [List.map_cons, List.nodup_cons] at hnd
      exact ih hrest hnd.2 _ (by rw [hasCol_setCol]; exact hc)

/-- C8 counterexample: the name `n` was fit (it is registered), yet
`transform_scaler` raises — sklearn rejects the table because the stored
column `a` is absent, so "when name was fit, it does not raise" is false. -/
theorem c8_counterexample :
    stLookup [("n", ⟨["a"], [("a", 2, 1)]⟩)] "n" ≠ none ∧
    transformScaler [("n", ⟨["a"], [("a", 2, 1)]⟩)] ⟨1, [("b", [some 3])]⟩ "n"
      = .error .featureMismatch := by
  decide

/-- C8 (amended).  `transform_scaler` fails with the lookup error exactly
when the name was never fit; and when the name is registered, all stored
columns are present (with distinct names matching the stored parameters) and
the sample is nonempty, it returns the table with the stored columns
zero-filled and transformed by the stored parameters and every other column
unchanged.  (The function always returns a fresh table, so the caller's
input is unchanged by construction.) -/
theorem c8_transform_contract (st : List (String × ScalerInfo)) (df : DF)
    (name : String) :
    (transformScaler st df name = .error .scalerNotFound ↔ stLookup st name = none) ∧
    (∀ info, stLookup st name = some info →
      (∀ c ∈ info.columns, df.hasCol c = true) →
      info.params.map (fun p => p.1) = info.columns →
      info.columns.Nodup →
      0 < df.nrows →
      transformScaler st df name = .ok (scaleColumns df info.params) ∧
      (∀ c, c ∉ info.columns → (scaleColumns df info.params).getCol c = df.getCol c) ∧
      (∀ cp ∈ info.params, (scaleColumns df info.params).getCol cp.1
          = (zfill (df.getCol cp.1)).map (fun x => some ((x - cp.2.1) / cp.2.2)))) := by
  constructor
  · unfold transformScaler
    cases h : stLookup st name with
    | none => simp
    | some info =>
      simp only [h]
      constructor
      · intro hcontra
        split at hcontra
        · cases hcontra
        · split at hcontra
          · cases hcontra
          · cases hcontra
      · intro hcontra
        cases hcontra
  · intro info hinfo hall hkeys hnd hn
    have hlen : info.params.length = info.columns.length := by
      rw [← hkeys, List.length_map]
    have hfilter : info.columns.filter (fun c => df.hasCol c) = info.columns :=
      List.filter_eq_self.mpr (fun a ha => hall a ha)
    refine ⟨?_, ?_, ?_⟩
    · unfold transformScaler
      rw [hinfo]
      dsimp only [Option.map]
      rw [if_neg (Nat.pos_iff_ne_zero.mp hn), hfilter,
        if_neg (by rw [hlen]; exact fun hne => hne rfl)]
    · intro c hc
      unfold scaleColumns
      refine foldSet_getCol_ne df df info.params c ?_
      intro p hp hpc
      exact hc (by rw [← hpc, ← hkeys]; exact List.mem_map_of_mem _ hp)
    · intro cp hcp
      unfold scaleColumns
      refine foldSet_getCol_eq df info.params cp.1 cp.2.1 cp.2.2 (by simpa using hcp)
        (by rw [hkeys]; exact hnd) df ?_
      refine hall cp.1 ?_
      rw [← hkeys]
      exact List.mem_map_of_mem _ hcp

/-- Witness for C8 (amended) at a concrete registry and table. -/
theorem c8_transform_contract_witness :
    transformScaler [("n", ⟨["a"], [("a", 2, 1)]⟩)] ⟨1, [("a", [some 4]), ("b", [none])]⟩ "n"
      = .ok (scaleColumns ⟨1, [("a", [some 4]), ("b", [none])]⟩ [("a", 2, 1)]) :=
  ((c8_transform_contract [("n", ⟨["a"], [("a", 2, 1)]⟩)]
      ⟨1, [("a", [some 4]), ("b", [none])]⟩ "n").2
    ⟨["a"], [("a", 2, 1)]⟩ (by decide) (by decide) (by decide) (by decide)
    (by decide)).1

/-- C10 counterexample: a requested column is present, yet nothing is
registered — sklearn refuses to fit a scaler on a zero-row table, so the
claim's second branch fails as stated (it needs at least one row). -/
theorem c10_counterexample :
    fitScaler (fun q => q) [] ⟨0, [("a", [])]⟩ ["a"] "n" = .error .emptySample := by
  decide

theorem annGo_stint_mem (pairs : List (LapRow × ℕ)) :
    ∀ (pre : List ℕ) (a : ALap), a ∈ annGo pre pairs → a.stint ∈ pairs.map (·.2) := by
  induction pairs with
  | nil =>
    intro pre a ha
    cases ha
  | cons p rest ih =>
    intro pre a ha
    rw [annGo] at ha
    rcases List.mem_cons.mp ha with heq | htail
    · rw [heq]
      exact List.mem_cons_self _ _
    · exact List.mem_cons_of_mem _ (ih _ a htail)

/-- C4.  Stint segmentation: on the compound sequence `[A,A,A,B,B,A]` the
assigned stint numbers are `[1,1,1,2,2,3]` and the in-stint ages are
`[1,2,3,1,2,1]`; and absent a `Compound` column every lap belongs to
stint 1. -/
theorem c4_stint_segmentation :
    ((annotateLaps ⟨true, true,
        [⟨"D", 1, some "A", some 90⟩, ⟨"D", 2, some "A", some 91⟩,
         ⟨"D", 3, some "A", some 92⟩, ⟨"D", 4, some "B", some 93⟩,
         ⟨"D", 5, some "B", some 94⟩, ⟨"D", 6, some "A", some 95⟩]⟩ "D").map (·.stint)
        = [1, 1, 1, 2, 2, 3] ∧
     (annotateLaps ⟨true, true,
        [⟨"D", 1, some "A", some 90⟩, ⟨"D", 2, some "A", some 91⟩,
         ⟨"D", 3, some "A", some 92⟩, ⟨"D", 4, some "B", some 93⟩,
         ⟨"D", 5, some "B", some 94⟩, ⟨"D", 6, some "A", some 95⟩]⟩ "D").map (·.age)
        = [1, 2, 3, 1, 2, 1]) ∧
    ∀ (tbl : LapTable) (d : String), tbl.hasCompound = false →
      ∀ a ∈ annotateLaps tbl d, a.stint = 1 := by
  refine ⟨by decide, ?_⟩
  intro tbl d h a ha
  unfold annotateLaps at ha
  rw [h] at ha
  have hmem := annGo_stint_mem _ _ _ ha
  obtain ⟨pz, hpz, hsnd⟩ := List.mem_map.mp hmem
  have h2 := (List.of_mem_zip hpz).2
  simp only [stintNums, Bool.false_eq_true, if_false] at h2
  obtain ⟨x, _, hx⟩ := List.mem_map.mp h2
  rw [← hsnd, ← hx]

/-- Witness for C4's universal branch: a table without a `Compound` column
puts every lap in stint 1. -/
theorem c4_stint_segmentation_witness :
    ((annotateLaps ⟨false, true, [⟨"D", 1, none, some 90⟩, ⟨"D", 2, none, some 91⟩]⟩
      "D").all (fun a => a.stint = 1)) = true := by
  have h := c4_stint_segmentation.2
    ⟨false, true, [⟨"D", 1, none, some 90⟩, ⟨"D", 2, none, some 91⟩]⟩ "D" rfl
  rw [List.all_eq_true]
  intro a ha
  simpa using h a ha

theorem sum_map_sub_sq (x : ℚ) (l : List ℚ) :
    (l.map (fun y => (x - y) ^ 2)).sum
      = (l.length : ℚ) * x ^ 2 - 2 * x * l.sum + (l.map (fun y => y ^ 2)).sum := by
  induction l with
  | nil => simp
  | cons a t ih =>
    simp only [List.map_cons, List.sum_cons, List.length_cons, ih]
    push_cast
    ring

theorem nsumsq_nonneg (l : List ℚ) :
    0 ≤ (l.length : ℚ) * (l.map (fun y => y ^ 2)).sum - l.sum ^ 2 := by
  induction l with
  | nil => simp
  | cons x t ih =>
    have hnn : 0 ≤ (t.map (fun y => (x - y) ^ 2)).sum :=
      List.sum_nonneg (fun a ha => by
        obtain ⟨y, _, hy⟩ := List.mem_map.mp ha
        rw [← hy]
        positivity)
    have key : ((x :: t).length : ℚ) * ((x :: t).map (fun y => y ^ 2)).sum - (x :: t).sum ^ 2
        = (t.map (fun y => (x - y) ^ 2)).sum
          + ((t.length : ℚ) * (t.map (fun y => y ^ 2)).sum - t.sum ^ 2) := by
      simp only [List.map_cons, List.sum_cons, List.length_cons, sum_map_sub_sq]
      push_cast
      ring
    rw [key]
    exact add_nonneg hnn ih

theorem nsumsq_pos (l : List ℚ) (u v : ℚ) (hu : u ∈ l) (hv : v ∈ l) (huv : u ≠ v) :
    0 < (l.length : ℚ) * (l.map (fun y => y ^ 2)).sum - l.sum ^ 2 := by
  cases l with
  | nil => cases hu
  | cons x t =>
    have key : ((x :: t).length : ℚ) * ((x :: t).map (fun y => y ^ 2)).sum - (x :: t).sum ^ 2
        = (t.map (fun y => (x - y) ^ 2)).sum
          + ((t.length : ℚ) * (t.map (fun y => y ^ 2)).sum - t.sum ^ 2) := by
      simp only [List.map_cons, List.sum_cons, List.length_cons, sum_map_sub_sq]
      push_cast
      ring
    rw [key]
    by_cases hyt : ∃ y ∈ t, y ≠ x
    · obtain ⟨y, hy, hxy⟩ := hyt
      have h1 : 0 < (x - y) ^ 2 :=
        pow_two_pos_of_ne_zero (sub_ne_zero_of_ne (Ne.symm hxy))
      have h2 : (x - y) ^ 2 ≤ (t.map (fun z => (x - z) ^ 2)).sum :=
        List.single_le_sum (fun a ha => by
            obtain ⟨z, _, hz⟩ := List.mem_map.mp ha
            rw [← hz]
            positivity)
          _ (List.mem_map_of_mem _ hy)
      have h3 := nsumsq_nonneg t
      linarith
    · push_neg at hyt
      have hux : u = x := by
        rcases List.mem_cons.mp hu with h | h
        · exact h
        · exact hyt u h
      have hvx : v = x := by
        rcases List.mem_cons.mp hv with h | h
        · exact h
        · exact hyt v h
      exact absurd (hux.trans hvx.symm) huv

theorem affine_sums (a b : ℚ) : ∀ (xs ys : List ℚ), ys.length = xs.length →
    (∀ p ∈ xs.zip ys, p.2 = a + b * p.1) →
    ys.sum = (xs.length : ℚ) * a + b * xs.sum ∧
    ((xs.zip ys).map (fun p => p.1 * p.2)).sum
      = a * xs.sum + b * (xs.map (fun x => x ^ 2)).sum := by
  intro xs
  induction xs with
  | nil =>
    intro ys hlen _
    rw [List.length_eq_zero.mp hlen]
    simp
  | cons x txs ih =>
    intro ys hlen hxy
    cases ys with
    | nil => simp at hlen
    | cons y tys =>
      have hlen2 : tys.length = txs.length := by simpa using hlen
      have hhead : y = a + b * x := hxy (x, y) (by simp [List.zip_cons_cons])
      obtain ⟨h1, h2⟩ := ih tys hlen2 (fun p hp =>
        hxy p (by rw [List.zip_cons_cons]; exact List.mem_cons_of_mem _ hp))
      constructor
      · simp only [List.sum_cons, List.length_cons, h1, hhead]
        push_cast
        ring
      · simp only [List.zip_cons_cons, List.map_cons, List.sum_cons, h2, hhead]
        ring

/-- Ordinary least squares recovers the exact slope of affine data with at
least two distinct sample points. -/
theorem olsSlope_affine (xs ys : List ℚ) (a b : ℚ)
    (hlen : ys.length = xs.length)
    (hxy : ∀ p ∈ xs.zip ys, p.2 = a + b * p.1)
    (u v : ℚ) (hu : u ∈ xs) (hv : v ∈ xs) (huv : u ≠ v) :
    olsSlope xs ys = b := by
  obtain ⟨h1, h2⟩ := affine_sums a b xs ys hlen hxy
  have hD := nsumsq_pos xs u v hu hv huv
  simp only [olsSlope]
  rw [h1, h2, div_eq_iff (ne_of_gt hD)]
  ring

theorem annGo_filter_ages (s : ℕ) : ∀ (pairs : List (LapRow × ℕ)) (pre : List ℕ),
    (((annGo pre pairs).filter (fun a => a.stint = s)).map (·.age))
      = List.range' (1 + pre.countP (· = s)) ((pairs.map (·.2)).countP (· = s)) := by
  intro pairs
  induction pairs with
  | nil =>
    intro pre
    simp [annGo]
  | cons p rest ih =>
    intro pre
    rw [annGo]
    by_cases hp : p.2 = s
    · rw [List.filter_cons_of_pos (by simpa using hp), List.map_cons, ih]
      have hcount : ((p :: rest).map (·.2)).countP (· = s)
          = ((rest.map (·.2)).countP (· = s)) + 1 := by
        simp [List.countP_cons, hp]
      have hpre : (pre ++ [p.2]).countP (· = s) = pre.countP (· = s) + 1 := by
        simp [List.countP_append, List.countP_cons, hp]
      rw [hcount, List.range'_succ, hpre, hp]
      simp [Nat.add_assoc]
    · rw [List.filter_cons_of_neg (by simpa using hp), ih]
      have hcount : ((p :: rest).map (·.2)).countP (· = s)
          = (rest.map (·.2)).countP (· = s) := by
        simp [List.countP_cons, hp]
      have hpre : (pre ++ [p.2]).countP (· = s) = pre.countP (· = s) := by
        simp [List.countP_append, List.countP_cons, hp]
      rw [hcount, hpre]

theorem stintRowFor_key (laps : LapTable) (annot : List ALap) (s : ℕ) (r : StintRow)
    (h : stintRowFor laps annot s = some r) : r.stintNumber = s := by
  simp only [stintRowFor] at h
  by_cases h1 : (annot.filter (fun a => a.stint = s)).length < 3
  · rw [if_pos h1] at h
    cases h
  · rw [if_neg h1] at h
    by_cases h2 : laps.hasLapTimeSeconds = true
    · rw [if_pos h2] at h
      by_cases h3 : 3 ≤ ((annot.filter (fun a => a.stint = s)).filter
          (fun a => a.lap.lapTimeSeconds ≠ none)).length
      · rw [if_pos h3] at h
        cases hh : (annot.filter (fun a => a.stint = s)).head? with
        | none =>
          rw [hh] at h
          cases h
        | some g =>
          rw [hh] at h
          simp only [Option.some.injEq] at h
          rw [← h]
      · rw [if_neg h3] at h
        cases h
    · rw [if_neg h2] at h
      cases h

theorem filterMap_stint_filter (f : ℕ → Option StintRow)
    (hkey : ∀ s r, f s = some r → r.stintNumber = s) :
    ∀ (ids : List ℕ), ids.Nodup → ∀ s : ℕ,
    ((ids.filterMap f).filter (fun r => r.stintNumber = s))
      = if s ∈ ids then (f s).toList else [] := by
  intro ids
  induction ids with
  | nil =>
    intro _ s
    simp
  | cons i rest ih =>
    intro hnd s
    rw [List.nodup_cons] at hnd
    rw [List.filterMap_cons]
    cases hfi : f i with
    | none =>
      rw [ih hnd.2 s]
      by_cases he : s = i
      · subst he
        rw [if_neg hnd.1, if_pos (List.mem_cons_self _ _), hfi]
        rfl
      · by_cases hm : s ∈ rest <;> simp [List.mem_cons, he, hm]
    | some r =>
      have hr := hkey i r hfi
      rw [List.filter_cons]
      by_cases he : s = i
      · subst he
        rw [if_pos (by simp [hr]), ih hnd.2 s, if_neg hnd.1,
          if_pos (List.mem_cons_self _ _), hfi]
        rfl
      · rw [if_neg (by simp [hr]; exact fun hc => he hc.symm), ih hnd.2 s]
        by_cases hm : s ∈ rest <;> simp [List.mem_cons, he, hm]

/-- C5.  Degradation estimator: over a lap table with `LapTimeSeconds`
present, a stint with at least 3 valid (non-missing) lap times contributes
exactly one output row, carrying the OLS slope of lap time against in-stint
age over the valid laps together with the stint length, mean and minimum
valid lap time; a stint with fewer than 3 valid laps is silently omitted (the
model is total, so no error is possible); and when the valid lap times are
exactly affine in age with slope `b0 > 0`, the estimated rate equals `b0` and
is positive. -/
theorem c5_degradation_estimator (tbl : LapTable) (d : String)
    (hT : tbl.hasLapTimeSeconds = true) (s : ℕ) :
    (∀ g, ((annotateLaps tbl d).filter (fun a => a.stint = s)).head? = some g →
      3 ≤ (((annotateLaps tbl d).filter (fun a => a.stint = s)).filter (fun a => a.lap.lapTimeSeconds ≠ none)).length →
      (computeTireFeatures tbl d).filter (fun r => r.stintNumber = s)
        = [{ stintNumber := s,
             compound := if tbl.hasCompound then g.lap.compound else some "Unknown",
             stintLength := ((annotateLaps tbl d).filter (fun a => a.stint = s)).length,
             degradationRate := olsSlope ((((annotateLaps tbl d).filter (fun a => a.stint = s)).filter (fun a => a.lap.lapTimeSeconds ≠ none)).map (fun a => (a.age : ℚ))) ((((annotateLaps tbl d).filter (fun a => a.stint = s)).filter (fun a => a.lap.lapTimeSeconds ≠ none)).map (fun a => a.lap.lapTimeSeconds.getD 0)),
             avgLapTime := ((((annotateLaps tbl d).filter (fun a => a.stint = s)).filter (fun a => a.lap.lapTimeSeconds ≠ none)).map (fun a => a.lap.lapTimeSeconds.getD 0)).sum / (((((annotateLaps tbl d).filter (fun a => a.stint = s)).filter (fun a => a.lap.lapTimeSeconds ≠ none)).map (fun a => a.lap.lapTimeSeconds.getD 0)).length : ℚ),
             bestLapTime := (((((annotateLaps tbl d).filter (fun a => a.stint = s)).filter (fun a => a.lap.lapTimeSeconds ≠ none)).map (fun a => a.lap.lapTimeSeconds.getD 0)).min?).getD 0 }]) ∧
    ((((annotateLaps tbl d).filter (fun a => a.stint = s)).filter (fun a => a.lap.lapTimeSeconds ≠ none)).length < 3 →
      (computeTireFeatures tbl d).filter (fun r => r.stintNumber = s) = []) ∧
    (∀ a0 b0 : ℚ, 0 < b0 →
      3 ≤ (((annotateLaps tbl d).filter (fun a => a.stint = s)).filter (fun a => a.lap.lapTimeSeconds ≠ none)).length →
      (∀ al ∈ (((annotateLaps tbl d).filter (fun a => a.stint = s)).filter (fun a => a.lap.lapTimeSeconds ≠ none)), al.lap.lapTimeSeconds = some (a0 + b0 * (al.age : ℚ))) →
      olsSlope ((((annotateLaps tbl d).filter (fun a => a.stint = s)).filter (fun a => a.lap.lapTimeSeconds ≠ none)).map (fun a => (a.age : ℚ))) ((((annotateLaps tbl d).filter (fun a => a.stint = s)).filter (fun a => a.lap.lapTimeSeconds ≠ none)).map (fun a => a.lap.lapTimeSeconds.getD 0)) = b0 ∧ 0 < olsSlope ((((annotateLaps tbl d).filter (fun a => a.stint = s)).filter (fun a => a.lap.lapTimeSeconds ≠ none)).map (fun a => (a.age : ℚ))) ((((annotateLaps tbl d).filter (fun a => a.stint = s)).filter (fun a => a.lap.lapTimeSeconds ≠ none)).map (fun a => a.lap.lapTimeSeconds.getD 0))) := by
  have hkey : ∀ s2 r, stintRowFor tbl (annotateLaps tbl d) s2 = some r → r.stintNumber = s2 :=
    fun s2 r h => stintRowFor_key tbl (annotateLaps tbl d) s2 r h
  have hCTF : computeTireFeatures tbl d
      = (((annotateLaps tbl d).map (·.stint)).dedup).filterMap (stintRowFor tbl (annotateLaps tbl d)) := rfl
  have hmain := filterMap_stint_filter (stintRowFor tbl (annotateLaps tbl d)) hkey
    (((annotateLaps tbl d).map (·.stint)).dedup) (List.nodup_dedup _)
  refine ⟨?_, ?_, ?_⟩
  · intro g hg h3
    have hlenG : ¬ (((annotateLaps tbl d).filter (fun a => a.stint = s)).length < 3) := by
      have hle := List.length_filter_le (fun a => a.lap.lapTimeSeconds ≠ none) ((annotateLaps tbl d).filter (fun a => a.stint = s))
      omega
    have hsmem : s ∈ ((annotateLaps tbl d).map (·.stint)).dedup := by
      have hVne : (((annotateLaps tbl d).filter (fun a => a.stint = s)).filter (fun a => a.lap.lapTimeSeconds ≠ none)) ≠ [] := by
        intro hcon
        rw [hcon] at h3
        simp at h3
      obtain ⟨al, hal⟩ := List.exists_mem_of_ne_nil _ hVne
      have halG := (List.mem_filter.mp hal).1
      have h5 := List.mem_filter.mp halG
      rw [List.mem_dedup]
      have hst : al.stint = s := by simpa using h5.2
      rw [← hst]
      exact List.mem_map_of_mem _ h5.1
    rw [hCTF, hmain s, if_pos hsmem]
    simp only [stintRowFor]
    rw [if_neg hlenG, if_pos hT, if_pos h3, hg]
    rfl
  · intro hlt
    rw [hCTF, hmain s]
    by_cases hsmem : s ∈ ((annotateLaps tbl d).map (·.stint)).dedup
    · rw [if_pos hsmem]
      simp only [stintRowFor]
      by_cases h1 : ((annotateLaps tbl d).filter (fun a => a.stint = s)).length < 3
      · rw [if_pos h1]
        rfl
      · rw [if_neg h1, if_pos hT, if_neg (by omega)]
        rfl
    · rw [if_neg hsmem]
  · intro a0 b0 hb h3 haff
    have hlen : ((((annotateLaps tbl d).filter (fun a => a.stint = s)).filter (fun a => a.lap.lapTimeSeconds ≠ none)).map (fun a => a.lap.lapTimeSeconds.getD 0)).length = ((((annotateLaps tbl d).filter (fun a => a.stint = s)).filter (fun a => a.lap.lapTimeSeconds ≠ none)).map (fun a => (a.age : ℚ))).length := by
      simp
    have hxy : ∀ p ∈ ((((annotateLaps tbl d).filter (fun a => a.stint = s)).filter (fun a => a.lap.lapTimeSeconds ≠ none)).map (fun a => (a.age : ℚ))).zip ((((annotateLaps tbl d).filter (fun a => a.stint = s)).filter (fun a => a.lap.lapTimeSeconds ≠ none)).map (fun a => a.lap.lapTimeSeconds.getD 0)), p.2 = a0 + b0 * p.1 := by
      rw [List.zip_map']
      intro p hp
      obtain ⟨al, halV, hpe⟩ := List.mem_map.mp hp
      rw [← hpe]
      have := haff al halV
      simp [this]
    have hGages : ((annotateLaps tbl d).filter (fun a => a.stint = s)).map (·.age)
        = List.range' 1 ((((annotateLaps tbl d).filter (fun a => a.stint = s)).map (·.age)).length) := by
      have hr := annGo_filter_ages s
        (((tbl.rows.filter (fun r => r.driver = d)).insertionSort lapNumLe).zip
          (stintNums tbl.hasCompound
            (((tbl.rows.filter (fun r => r.driver = d)).insertionSort lapNumLe).map (·.compound)))) []
      have hA2 : (annotateLaps tbl d) = annGo []
          (((tbl.rows.filter (fun r => r.driver = d)).insertionSort lapNumLe).zip
            (stintNums tbl.hasCompound
              (((tbl.rows.filter (fun r => r.driver = d)).insertionSort lapNumLe).map (·.compound)))) := rfl
      rw [hA2]
      rw [hr]
      simp
    have hsub : ((((annotateLaps tbl d).filter (fun a => a.stint = s)).filter (fun a => a.lap.lapTimeSeconds ≠ none)).map (·.age)).Sublist (((annotateLaps tbl d).filter (fun a => a.stint = s)).map (·.age)) :=
      (List.filter_sublist _).map _
    have hpw : List.Pairwise (· < ·) ((((annotateLaps tbl d).filter (fun a => a.stint = s)).filter (fun a => a.lap.lapTimeSeconds ≠ none)).map (·.age)) := by
      refine List.Pairwise.sublist hsub ?_
      rw [hGages]
      exact List.pairwise_lt_range' _ _
    have hpwQ : List.Pairwise (· < ·) ((((annotateLaps tbl d).filter (fun a => a.stint = s)).filter (fun a => a.lap.lapTimeSeconds ≠ none)).map (fun a => (a.age : ℚ))) := by
      have hxs : ((((annotateLaps tbl d).filter (fun a => a.stint = s)).filter (fun a => a.lap.lapTimeSeconds ≠ none)).map (fun a => (a.age : ℚ))) = ((((annotateLaps tbl d).filter (fun a => a.stint = s)).filter (fun a => a.lap.lapTimeSeconds ≠ none)).map (·.age)).map (fun n : ℕ => (n : ℚ)) := by
        rw [List.map_map]
        rfl
      rw [hxs]
      rw [List.pairwise_map]
      exact hpw.imp (fun hab => by exact_mod_cast hab)
    have hxlen : 3 ≤ ((((annotateLaps tbl d).filter (fun a => a.stint = s)).filter (fun a => a.lap.lapTimeSeconds ≠ none)).map (fun a => (a.age : ℚ))).length := by
      simpa using h3
    have hslope : olsSlope ((((annotateLaps tbl d).filter (fun a => a.stint = s)).filter (fun a => a.lap.lapTimeSeconds ≠ none)).map (fun a => (a.age : ℚ))) ((((annotateLaps tbl d).filter (fun a => a.stint = s)).filter (fun a => a.lap.lapTimeSeconds ≠ none)).map (fun a => a.lap.lapTimeSeconds.getD 0)) = b0 := by
      rcases hxmatch : ((((annotateLaps tbl d).filter (fun a => a.stint = s)).filter (fun a => a.lap.lapTimeSeconds ≠ none)).map (fun a => (a.age : ℚ))) with _ | ⟨x0, _ | ⟨x1, xs2⟩⟩
      · rw [hxmatch] at hxlen
        simp at hxlen
      · rw [hxmatch] at hxlen
        simp at hxlen
      · have hpw2 := hxmatch ▸ hpwQ
        have hlt01 : x0 < x1 := (List.pairwise_cons.mp hpw2).1 x1 (List.mem_cons_self _ _)
        refine olsSlope_affine _ _ a0 b0 hlen hxy x0 x1 ?_ ?_ (ne_of_lt hlt01)
        · rw [hxmatch]
          exact List.mem_cons_self _ _
        · rw [hxmatch]
          exact List.mem_cons_of_mem _ (List.mem_cons_self _ _)
    exact ⟨hslope, hslope ▸ hb⟩

/-- Witness for C5: a synthetic 4-lap stint whose times rise linearly by two
seconds per lap yields a positive degradation rate of exactly 2. -/
theorem c5_degradation_estimator_witness :
    olsSlope ((((annotateLaps (⟨true, true, [⟨"D", 1, some "S", some 90⟩, ⟨"D", 2, some "S", some 92⟩, ⟨"D", 3, some "S", some 94⟩, ⟨"D", 4, some "S", some 96⟩]⟩ : LapTable) "D").filter (fun a => a.stint = 1)).filter (fun a => a.lap.lapTimeSeconds ≠ none)).map (fun a => (a.age : ℚ))) ((((annotateLaps (⟨true, true, [⟨"D", 1, some "S", some 90⟩, ⟨"D", 2, some "S", some 92⟩, ⟨"D", 3, some "S", some 94⟩, ⟨"D", 4, some "S", some 96⟩]⟩ : LapTable) "D").filter (fun a => a.stint = 1)).filter (fun a => a.lap.lapTimeSeconds ≠ none)).map (fun a => a.lap.lapTimeSeconds.getD 0)) = 2 ∧ 0 < olsSlope ((((annotateLaps (⟨true, true, [⟨"D", 1, some "S", some 90⟩, ⟨"D", 2, some "S", some 92⟩, ⟨"D", 3, some "S", some 94⟩, ⟨"D", 4, some "S", some 96⟩]⟩ : LapTable) "D").filter (fun a => a.stint = 1)).filter (fun a => a.lap.lapTimeSeconds ≠ none)).map (fun a => (a.age : ℚ))) ((((annotateLaps (⟨true, true, [⟨"D", 1, some "S", some 90⟩, ⟨"D", 2, some "S", some 92⟩, ⟨"D", 3, some "S", some 94⟩, ⟨"D", 4, some "S", some 96⟩]⟩ : LapTable) "D").filter (fun a => a.stint = 1)).filter (fun a => a.lap.lapTimeSeconds ≠ none)).map (fun a => a.lap.lapTimeSeconds.getD 0)) := by
  have hV : (((annotateLaps (⟨true, true, [⟨"D", 1, some "S", some 90⟩, ⟨"D", 2, some "S", some 92⟩, ⟨"D", 3, some "S", some 94⟩, ⟨"D", 4, some "S", some 96⟩]⟩ : LapTable) "D").filter (fun a => a.stint = 1)).filter (fun a => a.lap.lapTimeSeconds ≠ none))
      = [⟨⟨"D", 1, some "S", some 90⟩, 1, 1⟩, ⟨⟨"D", 2, some "S", some 92⟩, 1, 2⟩,
         ⟨⟨"D", 3, some "S", some 94⟩, 1, 3⟩, ⟨⟨"D", 4, some "S", some 96⟩, 1, 4⟩] := by
    decide
  refine (c5_degradation_estimator (⟨true, true, [⟨"D", 1, some "S", some 90⟩, ⟨"D", 2, some "S", some 92⟩, ⟨"D", 3, some "S", some 94⟩, ⟨"D", 4, some "S", some 96⟩]⟩ : LapTable) "D" rfl 1).2.2 88 2 (by norm_num) ?_ ?_
  · rw [hV]
    simp
  · intro al hal
    rw [hV] at hal
    fin_cases hal <;> norm_num

theorem statsWalk_length (w : ℕ) : ∀ (rem pre : List ResultRow),
    (statsWalk w pre rem).length = rem.length := by
  intro rem
  induction rem with
  | nil => intro pre; rfl
  | cons r rest ih =>
    intro pre
    simp only [statsWalk, List.length_cons, ih]

theorem statsWalk_get (w : ℕ) : ∀ (rem pre : List ResultRow) (i : ℕ)
    (hi : i < rem.length) (hi2 : i < (statsWalk w pre rem).length),
    (statsWalk w pre rem).get ⟨i, hi2⟩
      = (rem.get ⟨i, hi⟩, mkDriverStats w ((pre ++ rem.take (i + 1)).filter
          (fun x => x.abbreviation = (rem.get ⟨i, hi⟩).abbreviation))) := by
  intro rem
  induction rem with
  | nil =>
    intro pre i hi
    exact absurd hi (Nat.not_lt_zero i)
  | cons r rest ih =>
    intro pre i hi hi2
    cases i with
    | zero => rfl
    | succ j =>
      have hj : j < rest.length := Nat.lt_of_succ_lt_succ hi
      have hj2 : j < (statsWalk w (pre ++ [r]) rest).length := by
        rw [statsWalk_length]
        exact hj
      have hstep : (statsWalk w pre (r :: rest)).get ⟨j + 1, hi2⟩
          = (statsWalk w (pre ++ [r]) rest).get ⟨j, hj2⟩ := by
        simp only [statsWalk]
        exact List.get_cons_succ
      rw [hstep, ih (pre ++ [r]) j hj hj2]
      simp only [List.get_cons_succ, List.take_succ_cons, List.append_assoc,
        List.singleton_append]

theorem statsWalk_filter (w : ℕ) (b : String) : ∀ (rem pre : List ResultRow),
    (statsWalk w pre rem).filter (fun pr => pr.1.abbreviation = b)
      = statsWalk w (pre.filter (fun x => x.abbreviation = b))
          (rem.filter (fun x => x.abbreviation = b)) := by
  intro rem
  induction rem with
  | nil => intro pre; rfl
  | cons r rest ih =>
    intro pre
    simp only [statsWalk]
    by_cases hr : r.abbreviation = b
    · rw [List.filter_cons_of_pos (by simpa using hr),
        List.filter_cons_of_pos (by simpa using hr)]
      simp only [statsWalk]
      have hpre : (pre ++ [r]).filter (fun x => x.abbreviation = b)
          = pre.filter (fun x => x.abbreviation = b) ++ [r] := by
        rw [List.filter_append]
        simp [hr]
      have hhead : (pre ++ [r]).filter (fun x => x.abbreviation = r.abbreviation)
          = (pre.filter (fun x => x.abbreviation = b) ++ [r]).filter
              (fun x => x.abbreviation = r.abbreviation) := by
        rw [List.filter_append, List.filter_append]
        congr 1
        rw [List.filter_congr (fun x _ => by rw [hr]),
          List.filter_filter]
        refine (List.filter_congr ?_).symm
        intro x _
        by_cases hx : x.abbreviation = b <;> simp [hx, hr]
      rw [ih (pre ++ [r]), hpre, hhead]
    · rw [List.filter_cons_of_neg (by simpa using hr),
        List.filter_cons_of_neg (by simpa using hr), ih (pre ++ [r])]
      have hpre : (pre ++ [r]).filter (fun x => x.abbreviation = b)
          = pre.filter (fun x => x.abbreviation = b) := by
        rw [List.filter_append]
        simp [hr]
      rw [hpre]

theorem get_congr (l l2 : List α) (h : l = l2) (i : ℕ) (h1 : i < l.length)
    (h2 : i < l2.length) : l.get ⟨i, h1⟩ = l2.get ⟨i, h2⟩ := by
  subst h
  rfl

theorem meanOpt_single (v : Val) : meanOpt [v] = v := by
  cases v <;> simp [meanOpt]

/-- C3.  Rolling-window semantics of `compute_driver_stats`: for a single
entity's chronologically sorted records and any window `w ≥ 1`, the rolling
statistic at 1-based position `i` is the statistic of rows
`max(1, i-w+1) .. i` (a minimum-periods window); at `i = 1` the rolling mean
is `r1`'s value; and in a multi-driver table each driver's rows carry exactly
the statistics computed from that driver's records alone — entities are never
mixed. -/
theorem c3_rolling_window (w : ℕ) (hw : 1 ≤ w) (a : String) (rs : List ResultRow)
    (hall : ∀ r ∈ rs, r.abbreviation = a)
    (hsort : rs.Sorted dateLe) :
    (∀ (i : ℕ) (hi : i < rs.length) (hi2 : i < (computeDriverStats rs w).length),
      ((computeDriverStats rs w).get ⟨i, hi2⟩).2.avgFinishLast5
          = meanOpt ((windowSlice rs (i + 1) w).map (·.position)) ∧
      ((computeDriverStats rs w).get ⟨i, hi2⟩).2.winsLast5
          = ((windowSlice rs (i + 1) w).countP (fun r => r.position = some 1) : ℚ)) ∧
    (∀ r0 rest, rs = r0 :: rest → ∀ h0 : 0 < (computeDriverStats rs w).length,
      ((computeDriverStats rs w).get ⟨0, h0⟩).2.avgFinishLast5 = r0.position) ∧
    (∀ (rs2 : List ResultRow) (b : String), rs2.Sorted abbrDateLe →
      (computeDriverStats rs2 w).filter (fun pr => pr.1.abbreviation = b)
        = computeDriverStats (rs2.filter (fun x => x.abbreviation = b)) w) := by
  have hsorted2 : rs.Sorted abbrDateLe :=
    List.Pairwise.imp_of_mem
      (fun ha hb hR => Or.inr ⟨(hall _ ha).trans (hall _ hb).symm, hR⟩) hsort
  have hCDS : computeDriverStats rs w = statsWalk w [] rs := by
    simp only [computeDriverStats]
    rw [List.Sorted.insertionSort_eq hsorted2]
  refine ⟨?_, ?_, ?_⟩
  · intro i hi hi2
    have hi3 : i < (statsWalk w [] rs).length := by
      rw [statsWalk_length]
      exact hi
    have hget := statsWalk_get w rs [] i hi hi3
    have hfilt : (([] ++ rs.take (i + 1)).filter
        (fun x => x.abbreviation = (rs.get ⟨i, hi⟩).abbreviation)) = rs.take (i + 1) := by
      rw [List.nil_append]
      refine List.filter_eq_self.mpr ?_
      intro x hx
      have h1 := hall x (List.take_subset _ _ hx)
      have h2 := hall _ (rs.get_mem i hi)
      simp only [decide_eq_true_eq, h1]
      exact h2.symm
    have hslice : lastN w (rs.take (i + 1)) = windowSlice rs (i + 1) w := by
      unfold lastN windowSlice
      congr 1
      rw [List.length_take]
      rw [Nat.min_eq_left (by omega)]
    rw [get_congr _ _ hCDS i hi2 hi3, hget]
    constructor
    · simp only [mkDriverStats, hfilt, hslice]
    · simp only [mkDriverStats, hfilt, hslice]
  · intro r0 rest hrs h0
    subst hrs
    have h03 : 0 < (statsWalk w [] (r0 :: rest)).length := by
      rw [statsWalk_length]
      simp
    have hget := statsWalk_get w (r0 :: rest) [] 0 (by simp) h03
    rw [get_congr _ _ hCDS 0 h0 h03, hget]
    have htake : ((r0 :: rest).take 1) = [r0] := rfl
    have hfilt : (([] ++ [r0]).filter
        (fun x => x.abbreviation = ((r0 :: rest).get ⟨0, by simp⟩).abbreviation)) = [r0] := by
      simp
    simp only [htake, hfilt, mkDriverStats]
    have hlast : lastN w [r0] = [r0] := by
      unfold lastN
      simp [Nat.sub_eq_zero_of_le hw]
    rw [hlast, List.map_singleton, meanOpt_single]
  · intro rs2 b hs2
    have e1 : rs2.insertionSort abbrDateLe = rs2 := List.Sorted.insertionSort_eq hs2
    have e2 : (rs2.filter (fun x => x.abbreviation = b)).insertionSort abbrDateLe
        = rs2.filter (fun x => x.abbreviation = b) :=
      List.Sorted.insertionSort_eq (hs2.filter _)
    simp only [computeDriverStats]
    rw [e1, e2, statsWalk_filter]
    rfl

/-- Witness for C3 at a two-race single-driver table with window 2. -/
theorem c3_rolling_window_witness :
    ((computeDriverStats [⟨2023, 1, "GP1", "AA", "T", some 4, some 1, 12, some 0, false, 10⟩, ⟨2023, 2, "GP2", "AA", "T", some 2, some 3, 18, some 1, false, 20⟩] 2).get ⟨1, by simp only [computeDriverStats]; rw [statsWalk_length, List.length_insertionSort]; decide⟩).2.avgFinishLast5
      = meanOpt ((windowSlice [⟨2023, 1, "GP1", "AA", "T", some 4, some 1, 12, some 0, false, 10⟩, ⟨2023, 2, "GP2", "AA", "T", some 2, some 3, 18, some 1, false, 20⟩] 2 2).map (·.position)) ∧
    ((computeDriverStats [⟨2023, 1, "GP1", "AA", "T", some 4, some 1, 12, some 0, false, 10⟩, ⟨2023, 2, "GP2", "AA", "T", some 2, some 3, 18, some 1, false, 20⟩] 2).get ⟨1, by simp only [computeDriverStats]; rw [statsWalk_length, List.length_insertionSort]; decide⟩).2.winsLast5
      = ((windowSlice [⟨2023, 1, "GP1", "AA", "T", some 4, some 1, 12, some 0, false, 10⟩, ⟨2023, 2, "GP2", "AA", "T", some 2, some 3, 18, some 1, false, 20⟩] 2 2).countP (fun r => r.position = some 1) : ℚ) :=
  (c3_rolling_window 2 (by decide) "AA" [⟨2023, 1, "GP1", "AA", "T", some 4, some 1, 12, some 0, false, 10⟩, ⟨2023, 2, "GP2", "AA", "T", some 2, some 3, 18, some 1, false, 20⟩]
    (by decide) (by decide)).1 1 (by decide) (by simp only [computeDriverStats]; rw [statsWalk_length, List.length_insertionSort]; decide)

/-- C9 counterexample: the driver appears in a nonempty qualifying table with
a `Q3` column, but no row has `Position == 1`; the source's
`quali_results[quali_results["Position"] == 1]["Q3"].iloc[0]` raises
`IndexError` instead of defaulting the gap to 1.0. -/
theorem c9_counterexample :
    computeSessionFeatures ⟨true, [⟨"AAA", some 2, some 91⟩]⟩ none (some "AAA")
      = .error "IndexError" := by
  decide

/-- C9 (amended).  For a driver appearing in the nonempty qualifying
results: with no `Q3` column the gap defaults to 1.0; with `Q3` present but
no `Position == 1` row the computation raises `IndexError` (its one
non-defaulting path); with a pole row carrying a valid nonzero time and a
valid driver time the gap is their difference in seconds; a missing driver
time, or a zero (falsy) pole time, defaults the gap to 1.0.  `grid_position`
is always the driver's qualifying `Position` cell. -/
theorem c9_gap_to_pole (q : QualiTable) (d : String) (r : QualiRow)
    (hd : d ≠ "") (hne : q.rows ≠ [])
    (hr : (q.rows.filter (fun x => x.abbreviation = d)).head? = some r) :
    (q.hasQ3 = false →
      computeSessionFeatures q none (some d)
        = .ok [("grid_position", r.position), ("quali_gap_to_pole", some 1)]) ∧
    (q.hasQ3 = true → (q.rows.filter (fun x => x.position = some 1)).head? = none →
      computeSessionFeatures q none (some d) = .error "IndexError") ∧
    (∀ pr, q.hasQ3 = true →
      (q.rows.filter (fun x => x.position = some 1)).head? = some pr →
      ∀ p, pr.q3 = some p → p ≠ 0 → ∀ dt, r.q3 = some dt →
      computeSessionFeatures q none (some d)
        = .ok [("grid_position", r.position), ("quali_gap_to_pole", some (dt - p))]) ∧
    (∀ pr, q.hasQ3 = true →
      (q.rows.filter (fun x => x.position = some 1)).head? = some pr →
      ∀ p, pr.q3 = some p → r.q3 = none →
      computeSessionFeatures q none (some d)
        = .ok [("grid_position", r.position), ("quali_gap_to_pole", some 1)]) ∧
    (∀ pr, q.hasQ3 = true →
      (q.rows.filter (fun x => x.position = some 1)).head? = some pr →
      pr.q3 = some 0 →
      computeSessionFeatures q none (some d)
        = .ok [("grid_position", r.position), ("quali_gap_to_pole", some 1)]) := by
  refine ⟨?_, ?_, ?_, ?_, ?_⟩
  · intro hq
    simp [computeSessionFeatures, hd, hne, hq, hr, poleTruthy, List.isEmpty_iff]
  · intro hq hpole
    simp [computeSessionFeatures, hd, hne, hq, hr, hpole, List.isEmpty_iff]
  · intro pr hq hpole p hp hp0 dt hdt
    simp [computeSessionFeatures, hd, hne, hq, hr, hpole, hp, hp0, hdt,
      poleTruthy, List.isEmpty_iff]
  · intro pr hq hpole p hp hdt
    simp [computeSessionFeatures, hd, hne, hq, hr, hpole, hp, hdt,
      poleTruthy, List.isEmpty_iff]
  · intro pr hq hpole hp
    simp [computeSessionFeatures, hd, hne, hq, hr, hpole, hp,
      poleTruthy, List.isEmpty_iff]

/-- Witness for C9's computable-gap branch at a concrete qualifying table. -/
theorem c9_gap_to_pole_witness :
    computeSessionFeatures
      ⟨true, [⟨"AAA", some 1, some 90⟩, ⟨"BBB", some 2, some 92⟩]⟩ none (some "BBB")
      = .ok [("grid_position", some 2), ("quali_gap_to_pole", some (92 - 90))] :=
  (c9_gap_to_pole ⟨true, [⟨"AAA", some 1, some 90⟩, ⟨"BBB", some 2, some 92⟩]⟩
      "BBB" ⟨"BBB", some 2, some 92⟩ (by decide) (by decide) (by decide)).2.2.1
    ⟨"AAA", some 1, some 90⟩ rfl (by decide) 90 rfl (by decide) 92 rfl

/-- C6 counterexample: in one `build_race_features` table, the driver
appearing in the qualifying results has the `grid_position` key while the
driver absent from qualifying does not — the rows of a single table do not
share one key set. -/
theorem c6_counterexample :
    "grid_position" ∈
      ((((buildRaceFeatures
          [⟨1, 1, "GP", "AA", "T1", some 1, some 1, 25, some 0, false, 10⟩,
           ⟨1, 1, "GP", "BB", "T1", some 2, some 2, 18, some 0, false, 10⟩]
          ⟨false, [⟨"AA", some 1, none⟩]⟩ 1 1).toOption.getD []).headD []).map (·.1)) ∧
    "grid_position" ∉
      ((((buildRaceFeatures
          [⟨1, 1, "GP", "AA", "T1", some 1, some 1, 25, some 0, false, 10⟩,
           ⟨1, 1, "GP", "BB", "T1", some 2, some 2, 18, some 0, false, 10⟩]
          ⟨false, [⟨"AA", some 1, none⟩]⟩ 1 1).toOption.getD []).getD 1 []).map (·.1)) := by
  decide

/-- C6 (amended).  The driver and team feature groups carry a fixed key set
in every row; the circuit group's key set does not depend on which
(non-empty) driver id is passed; but the session keys `grid_position` and
`quali_gap_to_pole` are present exactly for drivers appearing in the
non-empty qualifying results — a driver absent from qualifying gets no
session keys, so a table mixing such drivers has builder-induced missing
columns (and the circuit group's driver-at-circuit keys disappear entirely
from tables whose historical slice has no rows for the circuit). -/
theorem c6_key_sets (h : List ResultRow) (q : QualiTable)
    (teamName circuitName : String) (d d2 : String) (aod : Option ℤ) (w : ℕ) :
    ((computeDriverFeatures h d aod w).map (·.1)
        = ["avg_finish_last_n", "avg_grid_last_n", "avg_points_last_n", "wins_last_n",
           "podiums_last_n", "points_finishes_last_n", "avg_positions_gained", "dnf_rate",
           "career_races", "career_wins", "career_podiums", "career_points",
           "season_points", "season_position"]) ∧
    ((computeTeamFeatures h teamName aod w).map (·.1)
        = ["team_avg_points_last_n", "team_avg_finish_last_n", "team_season_points",
           "team_constructor_position", "team_reliability_rate"]) ∧
    (d ≠ "" → d2 ≠ "" →
      (computeCircuitFeatures h circuitName (some d)).map (·.1)
        = (computeCircuitFeatures h circuitName (some d2)).map (·.1)) ∧
    (∀ fs, d ≠ "" → q.rows ≠ [] → (∃ x ∈ q.rows, x.abbreviation = d) →
      computeSessionFeatures q none (some d) = .ok fs →
      fs.map (·.1) = ["grid_position", "quali_gap_to_pole"]) ∧
    ((∀ x ∈ q.rows, x.abbreviation ≠ d) →
      computeSessionFeatures q none (some d) = .ok []) := by
  refine ⟨?_, ?_, ?_, ?_, ?_⟩
  · simp only [computeDriverFeatures]
    split <;> rfl
  · simp only [computeTeamFeatures]
    split <;> rfl
  · intro hd hd2
    simp only [computeCircuitFeatures]
    split
    · rfl
    · rw [List.map_append, List.map_append]
      congr 1
      split <;> split <;> rfl
  · intro fs hd hne hex hok
    have hfil : (q.rows.filter (fun x => x.abbreviation = d)) ≠ [] := by
      obtain ⟨x, hx, hxd⟩ := hex
      exact List.ne_nil_of_mem (List.mem_filter.mpr ⟨hx, by simp [hxd]⟩)
    obtain ⟨r, hr⟩ : ∃ r, (q.rows.filter (fun x => x.abbreviation = d)).head? = some r := by
      cases hh : (q.rows.filter (fun x => x.abbreviation = d)).head? with
      | none => exact absurd (List.head?_eq_none_iff.mp hh) hfil
      | some r => exact ⟨r, rfl⟩
    simp only [computeSessionFeatures, Option.getD] at hok
    rw [if_pos ⟨hd, by simp only [List.isEmpty_iff]; exact hne⟩, hr] at hok
    cases hq : q.hasQ3 with
    | false =>
      rw [hq] at hok
      simp only [Bool.false_eq_true, if_false] at hok
      simp only [Except.ok.injEq] at hok
      rw [← hok]
      rfl
    | true =>
      rw [hq] at hok
      simp only [if_true] at hok
      cases hpole : (q.rows.filter (fun x => x.position = some 1)).head? with
      | none =>
        rw [hpole] at hok
        cases hok
      | some pr =>
        rw [hpole] at hok
        simp only [Except.ok.injEq] at hok
        rw [← hok]
        rfl
  · intro hnotmem
    simp only [computeSessionFeatures, Option.getD]
    by_cases hcond : d ≠ "" ∧ ¬ q.rows.isEmpty = true
    · rw [if_pos hcond]
      have hfil : q.rows.filter (fun x => x.abbreviation = d) = [] := by
        rw [List.filter_eq_nil_iff]
        intro x hx
        simp [hnotmem x hx]
      rw [hfil]
      rfl
    · rw [if_neg hcond]
      rfl

/-- Witness for C6 (amended) at concrete inputs: the fixed driver key list,
and the empty session mapping for a driver absent from qualifying. -/
theorem c6_key_sets_witness :
    ((computeDriverFeatures [] "AA" none 5).map (·.1)
        = ["avg_finish_last_n", "avg_grid_last_n", "avg_points_last_n", "wins_last_n",
           "podiums_last_n", "points_finishes_last_n", "avg_positions_gained", "dnf_rate",
           "career_races", "career_wins", "career_podiums", "career_points",
           "season_points", "season_position"]) ∧
    (computeSessionFeatures ⟨false, [⟨"AA", some 1, none⟩]⟩ none (some "BB") = .ok []) :=
  ⟨(c6_key_sets [] ⟨false, [⟨"AA", some 1, none⟩]⟩ "T" "C" "AA" "CC" none 5).1,
   (c6_key_sets [] ⟨false, [⟨"AA", some 1, none⟩]⟩ "T" "C" "BB" "CC" none 5).2.2.2.2
     (by decide)⟩
